import Mathlib

set_option maxHeartbeats 1000000

/-!
Verification of the linear-memory manager in `src/Lib/Runtime/Memory.cpp`.

The embedding models `Uptr` values as `Nat` with an explicit `% 2 ^ 64`
wherever the source's unsigned 64-bit arithmetic can wrap (the source
implicitly targets 64-bit hosts, spec section 9, so `UINTPTR_MAX = 2 ^ 64 - 1`).
Host pointers are `Nat`, with `0` playing the role of the null pointer.
The `Iptr` return value of grow/shrink is modelled as a mathematical `Int`
(the page counts involved always fit).  Calls into the platform shim
(`commitVirtualPages`, `decommitVirtualPages`, `freeVirtualPages`,
`allocateVirtualPages`) are recorded in an explicit trace, and their
success/failure is supplied by oracle arguments, since the platform layer
is outside this core.
-/

/-- Modelled from the spec: `IR::MemoryType` (its header `IR/Types.h` is not
among the sources).  Spec section 3: `min_pages` and `max_pages` are
non-negative integers, asserted to fit in a host-pointer-sized unsigned
integer at creation. -/
structure MemoryType where
  min : Nat
  max : Nat
  deriving DecidableEq, Repr

/-- The fields of `Runtime::MemoryInstance` used by the memory manager:
its immutable `type`, the reservation base pointer `baseAddress`
(`0` = null), the reservation size in bytes `endOffset`, and the current
committed WebAssembly page count `numPages`. -/
structure MemoryInstance where
  type : MemoryType
  baseAddress : Nat
  endOffset : Nat
  numPages : Nat
  deriving DecidableEq, Repr

/-- `IR::numBytesPerPageLog2`: a WebAssembly page is `2 ^ 16 = 65536` bytes
(spec section 3). -/
def numBytesPerPageLog2 : Nat := 16

/-- `numGuardPages` from the source: one trailing guard page. -/
def numGuardPages : Nat := 1

/-- The largest host-pointer-sized unsigned integer; the source targets
64-bit hosts (spec section 9). -/
def UINTPTR_MAX : Nat := 2 ^ 64 - 1

/-- `getPlatformPagesPerWebAssemblyPageLog2` from the source:
`IR::numBytesPerPageLog2 - Platform::getPageSizeLog2()`, guarded by
`errorUnless(Platform::getPageSizeLog2() <= IR::numBytesPerPageLog2)`
(theorems about traces therefore hypothesise `hostPageSizeLog2 ≤ 16`). -/
def getPlatformPagesPerWebAssemblyPageLog2 (hostPageSizeLog2 : Nat) : Nat :=
  numBytesPerPageLog2 - hostPageSizeLog2

/-- A call into the platform shim, with addresses in bytes and sizes in host
pages, exactly as the source issues them. -/
inductive HostCall where
  | reserve (numHostPages : Nat)
  | commit (address numHostPages : Nat)
  | decommit (address numHostPages : Nat)
  | free (address numHostPages : Nat)
  deriving DecidableEq, Repr

/-- `Runtime::growMemory`.  `commitOk` is the outcome of the
`Platform::commitVirtualPages` call when one is issued.  Returns the `Iptr`
result, the updated memory, and the platform calls issued.  The `% 2 ^ 64`
mirrors the `Uptr` wrap of `memory->numPages += numNewPages`. -/
def growMemory (hostPageSizeLog2 : Nat) (commitOk : Bool) (memory : MemoryInstance)
    (numNewPages : Nat) : Int × MemoryInstance × List HostCall :=
  let previousNumPages := memory.numPages
  if 0 < numNewPages then
    if numNewPages > memory.type.max ∨ memory.numPages > memory.type.max - numNewPages then
      (-1, memory, [])
    else
      let call := HostCall.commit
        (memory.baseAddress + (memory.numPages <<< numBytesPerPageLog2))
        (numNewPages <<< getPlatformPagesPerWebAssemblyPageLog2 hostPageSizeLog2)
      if commitOk then
        ((previousNumPages : Int),
          { memory with numPages := (memory.numPages + numNewPages) % 2 ^ 64 }, [call])
      else (-1, memory, [call])
  else ((previousNumPages : Int), memory, [])

/-- `Runtime::shrinkMemory`.  On success the source decrements
`memory->numPages` first and only then decommits, so the decommit address is
computed from the already-decremented page count. -/
def shrinkMemory (hostPageSizeLog2 : Nat) (memory : MemoryInstance)
    (numPagesToShrink : Nat) : Int × MemoryInstance × List HostCall :=
  let previousNumPages := memory.numPages
  if 0 < numPagesToShrink then
    if numPagesToShrink > memory.numPages ∨
        memory.numPages - numPagesToShrink < memory.type.min then
      (-1, memory, [])
    else
      let shrunk := { memory with numPages := memory.numPages - numPagesToShrink }
      ((previousNumPages : Int), shrunk,
        [HostCall.decommit (shrunk.baseAddress + (shrunk.numPages <<< numBytesPerPageLog2))
          (numPagesToShrink <<< getPlatformPagesPerWebAssemblyPageLog2 hostPageSizeLog2)])
  else ((previousNumPages : Int), memory, [])

/-- `Runtime::unmapMemoryPages`.  The three `wavmAssert`s are modelled as the
condition of the `if`; `none` is a fatal assertion failure.  The additions in
the assertions are `Uptr` additions, hence the `% 2 ^ 64`.  The source's
third assertion uses a strict `<` against `memory->numPages`. -/
def unmapMemoryPages (hostPageSizeLog2 : Nat) (memory : MemoryInstance)
    (pageIndex numPages : Nat) : Option (MemoryInstance × List HostCall) :=
  if pageIndex < memory.numPages ∧
      (pageIndex + numPages) % 2 ^ 64 > pageIndex ∧
      (pageIndex + numPages) % 2 ^ 64 < memory.numPages then
    some (memory,
      [HostCall.decommit (memory.baseAddress + (pageIndex <<< numBytesPerPageLog2))
        (numPages <<< getPlatformPagesPerWebAssemblyPageLog2 hostPageSizeLog2)])
  else none

/-- `Runtime::MemoryInstance::~MemoryInstance`, without the global-registry
erase (modelled separately): decommit all committed pages if any, then free
the reservation if `endOffset > 0` — note the source performs the free with
whatever `baseAddress` holds, null or not. -/
def destroyMemory (hostPageSizeLog2 : Nat) (memory : MemoryInstance) : List HostCall :=
  (if memory.numPages > 0 then
    [HostCall.decommit memory.baseAddress
      (memory.numPages <<< getPlatformPagesPerWebAssemblyPageLog2 hostPageSizeLog2)]
  else []) ++
  (if memory.endOffset > 0 then
    [HostCall.free memory.baseAddress ((memory.endOffset >>> hostPageSizeLog2) + numGuardPages)]
  else [])

/-- `createMemoryImpl` from the source.  `reserveResult` is the pointer
returned by `Platform::allocateVirtualPages` (`0` = null = failure);
`commitOk` feeds the `growMemory` call.  A freshly constructed
`MemoryInstance` has `numPages = 0` (spec section 4.1: "set `base_address`,
`end_offset = reservation_bytes`, `num_pages = 0`, then call
`Grow(min_pages)`"; the constructor lives in the `RuntimePrivate.h` header,
not among the sources).  On both failure paths the source `delete`s the
instance, running the destructor. -/
def createMemoryImpl (hostPageSizeLog2 : Nat) (reserveResult : Nat) (commitOk : Bool)
    (type : MemoryType) (numPages : Nat) : Option MemoryInstance × List HostCall :=
  let memoryMaxBytes : Nat := 8589934592
  let memoryMaxPages := memoryMaxBytes >>> hostPageSizeLog2
  let memory : MemoryInstance :=
    { type := type, baseAddress := reserveResult, endOffset := memoryMaxBytes, numPages := 0 }
  let reserveCall := HostCall.reserve (memoryMaxPages + numGuardPages)
  if memory.baseAddress = 0 then
    (none, reserveCall :: destroyMemory hostPageSizeLog2 memory)
  else
    let grown := growMemory hostPageSizeLog2 commitOk memory numPages
    if grown.1 = -1 then
      (none, reserveCall :: (grown.2.2 ++ destroyMemory hostPageSizeLog2 grown.2.1))
    else (some grown.2.1, reserveCall :: grown.2.2)

/-- `Runtime::createMemory`.  The outer `none` is the `wavmAssert` on
`type.size.min <= UINTPTR_MAX` failing (the source asserts only `min` here);
the inner value is the returned pointer, with `idOk` the outcome of the
compartment's id-table `add`. -/
def createMemory (hostPageSizeLog2 : Nat) (reserveResult : Nat) (commitOk idOk : Bool)
    (type : MemoryType) : Option (Option MemoryInstance) :=
  if type.min ≤ UINTPTR_MAX then
    some (match (createMemoryImpl hostPageSizeLog2 reserveResult commitOk type type.min).1 with
      | none => none
      | some memory => if idOk then some memory else none)
  else none

/-- `Runtime::getMemoryNumPages`. -/
def getMemoryNumPages (memory : MemoryInstance) : Nat := memory.numPages

/-- `Runtime::getMemoryMaxPages`; `none` is its `wavmAssert` on
`type.size.max <= UINTPTR_MAX` failing. -/
def getMemoryMaxPages (memory : MemoryInstance) : Option Nat :=
  if memory.type.max ≤ UINTPTR_MAX then some memory.type.max else none

/-- `Runtime::isAddressOwnedByMemory`, over the global `memories` list:
linear scan testing `address >= startAddress && address < endAddress` with
`endAddress = baseAddress + endOffset`. -/
def isAddressOwnedByMemory (memories : List MemoryInstance) (address : Nat) : Bool :=
  memories.any fun memory =>
    decide (memory.baseAddress ≤ address) &&
    decide (address < memory.baseAddress + memory.endOffset)

/-- Modelled from the spec: `Platform::saturateToBounds(x, bound) = min(x, bound)`
(spec section 6; the platform header is not among the sources). -/
def saturateToBounds (value maxValue : Nat) : Nat := min value maxValue

/-- Outcome of `getValidatedMemoryOffsetRange`: a fatal null dereference, the
`accessViolationType` exception, or a returned pointer. -/
inductive AccessResult where
  | crash
  | trap
  | ok (address : Nat)
  deriving DecidableEq, Repr

/-- `Runtime::getValidatedMemoryOffsetRange`.  The source computes
`memory->baseAddress + saturateToBounds(offset, memory->endOffset)` before
its `if`, so a null handle dereferences null (`crash`) before the
`!memory` disjunct of the condition is ever evaluated; for a non-null handle
that disjunct is false and is dropped here.  Pointer comparisons and the
`address + numBytes` overflow check are 64-bit, hence the `% 2 ^ 64`. -/
def getValidatedMemoryOffsetRange (memoryHandle : Option MemoryInstance)
    (offset numBytes : Nat) : AccessResult :=
  match memoryHandle with
  | none => AccessResult.crash
  | some memory =>
    let address := (memory.baseAddress + saturateToBounds offset memory.endOffset) % 2 ^ 64
    if address < memory.baseAddress ∨
        (address + numBytes) % 2 ^ 64 < address ∨
        (address + numBytes) % 2 ^ 64 > (memory.baseAddress + memory.endOffset) % 2 ^ 64 then
      AccessResult.trap
    else AccessResult.ok address

/-- Two reservations occupy disjoint address ranges (spec section 8,
invariant 6, restricted to `[base, base + end_offset)`). -/
def disjointReservations (a b : MemoryInstance) : Prop :=
  a.baseAddress + a.endOffset ≤ b.baseAddress ∨ b.baseAddress + b.endOffset ≤ a.baseAddress

/-- The page-count invariant of spec section 8, invariant 2. -/
def memInv (memory : MemoryInstance) : Prop :=
  memory.type.min ≤ memory.numPages ∧ memory.numPages ≤ memory.type.max

theorem shift_sub_mul_pow (h n : Nat) (hh : h ≤ 16) :
    (n <<< (16 - h)) * 2 ^ h = n * 65536 := by
  rw [Nat.shiftLeft_eq, mul_assoc, ← pow_add]
  have h16 : 16 - h + h = 16 := by omega
  rw [h16]; norm_num

theorem growMemory_zero (h : Nat) (c : Bool) (m : MemoryInstance) :
    growMemory h c m 0 = ((m.numPages : Int), m, []) := by
  simp [growMemory]

theorem growMemory_boundFail (h : Nat) (c : Bool) (m : MemoryInstance) (n : Nat)
    (hn : 0 < n) (hchk : m.type.max < n ∨ m.type.max - n < m.numPages) :
    growMemory h c m n = (-1, m, []) := by
  simp only [growMemory, gt_iff_lt, if_pos hn, if_pos hchk]

theorem growMemory_commitOk (h : Nat) (m : MemoryInstance) (n : Nat)
    (hn : 0 < n) (hchk : ¬(m.type.max < n ∨ m.type.max - n < m.numPages)) :
    growMemory h true m n = ((m.numPages : Int),
      { m with numPages := (m.numPages + n) % 2 ^ 64 },
      [HostCall.commit (m.baseAddress + (m.numPages <<< 16)) (n <<< (16 - h))]) := by
  simp only [growMemory, gt_iff_lt, if_pos hn, if_neg hchk, if_true,
    numBytesPerPageLog2, getPlatformPagesPerWebAssemblyPageLog2]

theorem growMemory_commitFail (h : Nat) (m : MemoryInstance) (n : Nat)
    (hn : 0 < n) (hchk : ¬(m.type.max < n ∨ m.type.max - n < m.numPages)) :
    growMemory h false m n = (-1, m,
      [HostCall.commit (m.baseAddress + (m.numPages <<< 16)) (n <<< (16 - h))]) := by
  simp only [growMemory, gt_iff_lt, if_pos hn, if_neg hchk,
    numBytesPerPageLog2, getPlatformPagesPerWebAssemblyPageLog2]
  simp

/-- C1: growMemory fails with -1 exactly when the request exceeds the type
maximum on its own, or added to the current page count, or the issued host
commit fails; otherwise it returns the previous page count and adds the new
pages, the commit being issued at the old end of the committed region;
n = 0 always succeeds without any host call; every failure leaves the
memory unchanged.  Stated for memories satisfying the reachable-state
invariant `num_pages ≤ max_pages` with a uintptr-representable maximum. -/
theorem growMemory_spec (hostPageSizeLog2 : Nat) (commitOk : Bool) (m : MemoryInstance)
    (n : Nat) (hinv : m.numPages ≤ m.type.max) (hmax : m.type.max ≤ UINTPTR_MAX)
    (hlog : hostPageSizeLog2 ≤ 16) :
    ((growMemory hostPageSizeLog2 commitOk m n).1 = -1 ↔
      (m.type.max < n ∨ m.type.max - n < m.numPages ∨ (0 < n ∧ commitOk = false)))
    ∧ ((growMemory hostPageSizeLog2 commitOk m n).1 ≠ -1 →
        (growMemory hostPageSizeLog2 commitOk m n).1 = (m.numPages : Int) ∧
        (growMemory hostPageSizeLog2 commitOk m n).2.1 = { m with numPages := m.numPages + n })
    ∧ ((growMemory hostPageSizeLog2 commitOk m n).1 = -1 →
        (growMemory hostPageSizeLog2 commitOk m n).2.1 = m)
    ∧ (n = 0 → (growMemory hostPageSizeLog2 commitOk m n).1 = (m.numPages : Int) ∧
        (growMemory hostPageSizeLog2 commitOk m n).2.1 = m ∧
        (growMemory hostPageSizeLog2 commitOk m n).2.2 = [])
    ∧ (0 < n → ¬(m.type.max < n ∨ m.type.max - n < m.numPages) →
        ∃ k, (growMemory hostPageSizeLog2 commitOk m n).2.2 =
            [HostCall.commit (m.baseAddress + m.numPages * 65536) k] ∧
          k * 2 ^ hostPageSizeLog2 = n * 65536) := by
  simp only [UINTPTR_MAX] at hmax
  rcases Nat.eq_zero_or_pos n with hn0 | hn
  · subst hn0
    rw [growMemory_zero]
    dsimp only
    refine ⟨⟨fun habs => absurd habs (by omega), fun hr => ?_⟩,
      fun _ => ⟨rfl, by simp⟩, fun habs => absurd habs (by omega),
      fun _ => ⟨rfl, rfl, rfl⟩, fun h0 => absurd h0 (by omega)⟩
    exfalso
    rcases hr with hr | hr | hr
    · omega
    · simp only [Nat.sub_zero] at hr; omega
    · exact absurd hr.1 (by omega)
  · by_cases hchk : m.type.max < n ∨ m.type.max - n < m.numPages
    · rw [growMemory_boundFail _ _ _ _ hn hchk]
      dsimp only
      exact ⟨⟨fun _ => hchk.imp id Or.inl, fun _ => rfl⟩, fun hne => absurd rfl hne,
        fun _ => rfl, fun h0 => absurd h0 (by omega), fun _ hne => absurd hchk hne⟩
    · cases commitOk
      · rw [growMemory_commitFail _ _ _ hn hchk]
        dsimp only
        refine ⟨⟨fun _ => Or.inr (Or.inr ⟨hn, rfl⟩), fun _ => rfl⟩,
          fun hne => absurd rfl hne, fun _ => rfl,
          fun h0 => absurd h0 (by omega), fun _ _ => ?_⟩
        exact ⟨n <<< (16 - hostPageSizeLog2), by rw [Nat.shiftLeft_eq],
          shift_sub_mul_pow _ _ hlog⟩
      · rw [growMemory_commitOk _ _ _ hn hchk]
        dsimp only
        have hmod : (m.numPages + n) % 2 ^ 64 = m.numPages + n := by
          have h64 : (2 : Nat) ^ 64 = 18446744073709551616 := by norm_num
          rw [h64]; rw [h64] at hmax; omega
        refine ⟨⟨fun habs => absurd habs (by omega), fun hr => ?_⟩,
          fun _ => ⟨rfl, by rw [hmod]⟩, fun habs => absurd habs (by omega),
          fun h0 => absurd h0 (by omega), fun _ _ => ?_⟩
        · exfalso
          rcases hr with hr | hr | hr
          · exact hchk (Or.inl hr)
          · exact hchk (Or.inr hr)
          · exact absurd hr.2 (by decide)
        · exact ⟨n <<< (16 - hostPageSizeLog2), by rw [Nat.shiftLeft_eq],
            shift_sub_mul_pow _ _ hlog⟩

/-- C1 witness: a concrete successful grow of three pages on a memory with
one committed page and a maximum of ten. -/
theorem growMemory_spec_witness :
    (growMemory 12 true ⟨⟨1, 10⟩, 65536, 8589934592, 1⟩ 3).1 = ((1 : Nat) : Int) ∧
    (growMemory 12 true ⟨⟨1, 10⟩, 65536, 8589934592, 1⟩ 3).2.1 =
      { type := ⟨1, 10⟩, baseAddress := 65536, endOffset := 8589934592, numPages := 1 + 3 } :=
  (growMemory_spec 12 true ⟨⟨1, 10⟩, 65536, 8589934592, 1⟩ 3 (by decide)
    (by norm_num [UINTPTR_MAX]) (by norm_num)).2.1 (by decide)

theorem shrinkMemory_zero (h : Nat) (m : MemoryInstance) :
    shrinkMemory h m 0 = ((m.numPages : Int), m, []) := by
  simp [shrinkMemory]

theorem shrinkMemory_boundFail (h : Nat) (m : MemoryInstance) (n : Nat)
    (hn : 0 < n) (hchk : m.numPages < n ∨ m.numPages - n < m.type.min) :
    shrinkMemory h m n = (-1, m, []) := by
  simp only [shrinkMemory, gt_iff_lt, if_pos hn, if_pos hchk]

theorem shrinkMemory_ok (h : Nat) (m : MemoryInstance) (n : Nat)
    (hn : 0 < n) (hchk : ¬(m.numPages < n ∨ m.numPages - n < m.type.min)) :
    shrinkMemory h m n = ((m.numPages : Int),
      { m with numPages := m.numPages - n },
      [HostCall.decommit (m.baseAddress + ((m.numPages - n) <<< 16)) (n <<< (16 - h))]) := by
  simp only [shrinkMemory, gt_iff_lt, if_pos hn, if_neg hchk,
    numBytesPerPageLog2, getPlatformPagesPerWebAssemblyPageLog2]

/-- C3: shrinkMemory fails with -1 exactly when the request exceeds the
current page count or would take it below the type minimum, leaving the
memory untouched with no host call; otherwise it returns the previous page
count and subtracts the pages, issuing the decommit with the address
computed from the already-decremented page count (the start of the vacated
pages); n = 0 succeeds with no host call.  Stated for memories satisfying
the reachable-state invariant `min_pages ≤ num_pages`. -/
theorem shrinkMemory_spec (hostPageSizeLog2 : Nat) (m : MemoryInstance) (n : Nat)
    (hinv : m.type.min ≤ m.numPages) (hlog : hostPageSizeLog2 ≤ 16) :
    ((shrinkMemory hostPageSizeLog2 m n).1 = -1 ↔
      (m.numPages < n ∨ m.numPages - n < m.type.min))
    ∧ ((shrinkMemory hostPageSizeLog2 m n).1 = -1 →
        (shrinkMemory hostPageSizeLog2 m n).2.1 = m ∧
        (shrinkMemory hostPageSizeLog2 m n).2.2 = [])
    ∧ ((shrinkMemory hostPageSizeLog2 m n).1 ≠ -1 →
        (shrinkMemory hostPageSizeLog2 m n).1 = (m.numPages : Int) ∧
        (shrinkMemory hostPageSizeLog2 m n).2.1 = { m with numPages := m.numPages - n })
    ∧ (n = 0 → (shrinkMemory hostPageSizeLog2 m n).1 = (m.numPages : Int) ∧
        (shrinkMemory hostPageSizeLog2 m n).2.1 = m ∧
        (shrinkMemory hostPageSizeLog2 m n).2.2 = [])
    ∧ ((shrinkMemory hostPageSizeLog2 m n).1 ≠ -1 → 0 < n →
        ∃ k, (shrinkMemory hostPageSizeLog2 m n).2.2 =
            [HostCall.decommit (m.baseAddress + (m.numPages - n) * 65536) k] ∧
          k * 2 ^ hostPageSizeLog2 = n * 65536) := by
  rcases Nat.eq_zero_or_pos n with hn0 | hn
  · subst hn0
    rw [shrinkMemory_zero]
    dsimp only
    refine ⟨⟨fun habs => absurd habs (by omega), fun hr => ?_⟩,
      fun habs => absurd habs (by omega),
      fun _ => ⟨rfl, by simp⟩,
      fun _ => ⟨rfl, rfl, rfl⟩,
      fun _ h0 => absurd h0 (by omega)⟩
    exfalso
    rcases hr with hr | hr
    · omega
    · simp only [Nat.sub_zero] at hr; omega
  · by_cases hchk : m.numPages < n ∨ m.numPages - n < m.type.min
    · rw [shrinkMemory_boundFail _ _ _ hn hchk]
      dsimp only
      exact ⟨⟨fun _ => hchk, fun _ => rfl⟩, fun _ => ⟨rfl, rfl⟩,
        fun hne => absurd rfl hne, fun h0 => absurd h0 (by omega),
        fun hne => absurd rfl hne⟩
    · rw [shrinkMemory_ok _ _ _ hn hchk]
      dsimp only
      refine ⟨⟨fun habs => absurd habs (by omega), fun hr => absurd hr hchk⟩,
        fun habs => absurd habs (by omega),
        fun _ => ⟨rfl, rfl⟩,
        fun h0 => absurd h0 (by omega),
        fun _ _ => ⟨n <<< (16 - hostPageSizeLog2), by rw [Nat.shiftLeft_eq],
          shift_sub_mul_pow _ _ hlog⟩⟩

/-- C3 witness: shrinking two of four committed pages on a memory with
minimum one page. -/
theorem shrinkMemory_spec_witness :
    (shrinkMemory 12 ⟨⟨1, 10⟩, 65536, 8589934592, 4⟩ 2).1 = ((4 : Nat) : Int) ∧
    (shrinkMemory 12 ⟨⟨1, 10⟩, 65536, 8589934592, 4⟩ 2).2.1 =
      { type := ⟨1, 10⟩, baseAddress := 65536, endOffset := 8589934592, numPages := 4 - 2 } :=
  (shrinkMemory_spec 12 ⟨⟨1, 10⟩, 65536, 8589934592, 4⟩ 2 (by decide) (by norm_num)).2.2.1
    (by decide)

/-- C6: whenever growMemory succeeds with k pages, the subsequent
shrinkMemory of k pages succeeds, restores num_pages to its value before
the grow, and the base address is unchanged throughout the sequence.
Stated for memories satisfying the reachable-state invariant
`min_pages ≤ num_pages` with a uintptr-representable maximum. -/
theorem grow_shrink_roundTrip (hostPageSizeLog2 : Nat) (commitOk : Bool)
    (m : MemoryInstance) (k : Nat) (hmin : m.type.min ≤ m.numPages)
    (hmax : m.type.max ≤ UINTPTR_MAX)
    (hgrow : (growMemory hostPageSizeLog2 commitOk m k).1 ≠ -1) :
    (shrinkMemory hostPageSizeLog2 (growMemory hostPageSizeLog2 commitOk m k).2.1 k).1 ≠ -1
    ∧ (shrinkMemory hostPageSizeLog2
        (growMemory hostPageSizeLog2 commitOk m k).2.1 k).2.1.numPages = m.numPages
    ∧ (growMemory hostPageSizeLog2 commitOk m k).2.1.baseAddress = m.baseAddress
    ∧ (shrinkMemory hostPageSizeLog2
        (growMemory hostPageSizeLog2 commitOk m k).2.1 k).2.1.baseAddress = m.baseAddress := by
  simp only [UINTPTR_MAX] at hmax
  rcases Nat.eq_zero_or_pos k with hk0 | hk
  · subst hk0
    rw [growMemory_zero]
    dsimp only
    rw [shrinkMemory_zero]
    exact ⟨by dsimp only; omega, rfl, rfl, rfl⟩
  · by_cases hchk : m.type.max < k ∨ m.type.max - k < m.numPages
    · rw [growMemory_boundFail _ _ _ _ hk hchk] at hgrow
      exact absurd rfl hgrow
    · cases commitOk
      · rw [growMemory_commitFail _ _ _ hk hchk] at hgrow
        exact absurd rfl hgrow
      · rw [growMemory_commitOk _ _ _ hk hchk] at hgrow ⊢
        have hmod : (m.numPages + k) % 2 ^ 64 = m.numPages + k := by
          have h64 : (2 : Nat) ^ 64 = 18446744073709551616 := by norm_num
          rw [h64]; rw [h64] at hmax; omega
        rw [hmod]
        dsimp only
        have hcond : ¬(({ m with numPages := m.numPages + k } : MemoryInstance).numPages < k ∨
            ({ m with numPages := m.numPages + k } : MemoryInstance).numPages - k <
              ({ m with numPages := m.numPages + k } : MemoryInstance).type.min) := by
          dsimp only; omega
        rw [shrinkMemory_ok _ _ _ hk hcond]
        exact ⟨by dsimp only; omega, by dsimp only; omega, rfl, rfl⟩

/-- C6 witness: growing three pages and shrinking them again on a memory
with one committed page. -/
theorem grow_shrink_roundTrip_witness :
    (shrinkMemory 12 (growMemory 12 true ⟨⟨1, 10⟩, 65536, 8589934592, 1⟩ 3).2.1 3).1 ≠ -1
    ∧ (shrinkMemory 12 (growMemory 12 true ⟨⟨1, 10⟩, 65536, 8589934592, 1⟩ 3).2.1 3).2.1.numPages = 1
    ∧ (growMemory 12 true ⟨⟨1, 10⟩, 65536, 8589934592, 1⟩ 3).2.1.baseAddress = 65536
    ∧ (shrinkMemory 12 (growMemory 12 true ⟨⟨1, 10⟩, 65536, 8589934592, 1⟩ 3).2.1 3).2.1.baseAddress
        = 65536 :=
  grow_shrink_roundTrip 12 true ⟨⟨1, 10⟩, 65536, 8589934592, 1⟩ 3 (by decide)
    (by norm_num [UINTPTR_MAX]) (by decide)

/-- C7: the claim's preconditions hold for unmapping the single committed
page of a one-page memory (n = 1 > 0, pageIndex = 0 < num_pages = 1,
pageIndex + n = num_pages, no overflow), yet the source's strict
`pageIndex + numPages < memory->numPages` assertion fails, so the call
aborts instead of decommitting the page. -/
theorem unmapMemoryPages_boundary_assertFails :
    (0 : Nat) < 1 ∧ (0 : Nat) + 1 ≤ 1 ∧
    unmapMemoryPages 12 ⟨⟨0, 10⟩, 65536, 8589934592, 1⟩ 0 1 = none := by decide

/-- C8: evaluated on a null memory handle, getValidatedMemoryOffsetRange
dereferences the handle (computing `memory->baseAddress + ...`) before the
`!memory` test, so it crashes rather than raising the access-violation
trap. -/
theorem getValidatedRange_nullHandle_crashes :
    getValidatedMemoryOffsetRange none 0 0 = AccessResult.crash ∧
    getValidatedMemoryOffsetRange none 0 0 ≠ AccessResult.trap := by decide

/-- C9 counterexample: a type whose max_pages exceeds UINTPTR_MAX (with a
representable min_pages) passes createMemory's creation-time assertion and
proceeds, instead of failing the assertion as the claim states. -/
theorem createMemory_assert_ignores_max :
    UINTPTR_MAX < (2 : Nat) ^ 64 ∧
    (createMemory 12 0 true true ⟨0, 2 ^ 64⟩).isSome = true := by decide

/-- C9 amended: the creation path asserts exactly that type.min_pages is
representable as a host-pointer-sized unsigned integer; max_pages
representability is asserted only by getMemoryMaxPages, not at creation. -/
theorem createMemory_assertion_spec :
    (∀ hostPageSizeLog2 reserveResult commitOk idOk type,
      createMemory hostPageSizeLog2 reserveResult commitOk idOk type = none ↔
        UINTPTR_MAX < type.min)
    ∧ (∀ m : MemoryInstance, getMemoryMaxPages m = none ↔ UINTPTR_MAX < m.type.max) := by
  constructor
  · intro hostPageSizeLog2 reserveResult commitOk idOk type
    simp only [createMemory]
    split_ifs with hmin
    · constructor
      · intro habs; cases habs
      · intro hlt; exact absurd hmin (by omega)
    · constructor
      · intro _; omega
      · intro _; trivial
  · intro m
    simp only [getMemoryMaxPages]
    split_ifs with hm
    · constructor
      · intro habs; cases habs
      · intro hlt; exact absurd hm (by omega)
    · constructor
      · intro _; omega
      · intro _; trivial

/-- C9 amended witness: a type whose min_pages exceeds UINTPTR_MAX fails the
creation assertion. -/
theorem createMemory_assertion_spec_witness :
    createMemory 12 0 true true ⟨2 ^ 64, 2 ^ 64⟩ = none :=
  (createMemory_assertion_spec.1 12 0 true true ⟨2 ^ 64, 2 ^ 64⟩).mpr (by decide)

theorem growMemory_baseAddress (h : Nat) (c : Bool) (m : MemoryInstance) (n : Nat) :
    (growMemory h c m n).2.1.baseAddress = m.baseAddress := by
  rcases Nat.eq_zero_or_pos n with hn0 | hn
  · subst hn0; rw [growMemory_zero]
  · by_cases hchk : m.type.max < n ∨ m.type.max - n < m.numPages
    · rw [growMemory_boundFail _ _ _ _ hn hchk]
    · cases c
      · rw [growMemory_commitFail _ _ _ hn hchk]
      · rw [growMemory_commitOk _ _ _ hn hchk]

theorem growMemory_no_free (h : Nat) (c : Bool) (m : MemoryInstance) (n a k : Nat) :
    HostCall.free a k ∉ (growMemory h c m n).2.2 := by
  rcases Nat.eq_zero_or_pos n with hn0 | hn
  · subst hn0; rw [growMemory_zero]; simp
  · by_cases hchk : m.type.max < n ∨ m.type.max - n < m.numPages
    · rw [growMemory_boundFail _ _ _ _ hn hchk]; simp
    · cases c
      · rw [growMemory_commitFail _ _ _ hn hchk]; simp
      · rw [growMemory_commitOk _ _ _ hn hchk]; simp

/-- C10 counterexample: when the host reservation fails, createMemoryImpl
returns null but its rollback (the destructor run by `delete memory`) still
invokes freeVirtualPages on the null base address, because endOffset was
assigned before the failure check. -/
theorem create_reserveFail_frees_null :
    (createMemoryImpl 12 0 true ⟨1, 10⟩ 1).1 = none ∧
    HostCall.free 0 ((8589934592 >>> 12) + 1) ∈ (createMemoryImpl 12 0 true ⟨1, 10⟩ 1).2 := by
  decide

theorem destroyMemory_free_addr (h : Nat) (m : MemoryInstance) (a k : Nat)
    (hmem : HostCall.free a k ∈ destroyMemory h m) : a = m.baseAddress := by
  simp only [destroyMemory, List.mem_append] at hmem
  rcases hmem with hmem | hmem
  · split at hmem
    · simp at hmem
    · simp at hmem
  · split at hmem
    · simp at hmem
      exact hmem.1
    · simp at hmem

/-- C10 amended: when the reservation fails, create returns null and issues
no decommit, but it does invoke freeVirtualPages on the null base address
(endOffset having been assigned before the failure check); growMemory never
issues a free, and every free issued by the destructor, hence by every
destruction path whose reservation succeeded, carries the memory's
(non-null) base address. -/
theorem destruction_free_paths :
    (∀ hostPageSizeLog2 commitOk type n,
      (createMemoryImpl hostPageSizeLog2 0 commitOk type n).1 = none
      ∧ (∀ a k, HostCall.decommit a k ∉ (createMemoryImpl hostPageSizeLog2 0 commitOk type n).2)
      ∧ HostCall.free 0 ((8589934592 >>> hostPageSizeLog2) + numGuardPages) ∈
          (createMemoryImpl hostPageSizeLog2 0 commitOk type n).2)
    ∧ (∀ hostPageSizeLog2 m a k,
        HostCall.free a k ∈ destroyMemory hostPageSizeLog2 m → a = m.baseAddress)
    ∧ (∀ hostPageSizeLog2 b commitOk type n a k, b ≠ 0 →
        HostCall.free a k ∈ (createMemoryImpl hostPageSizeLog2 b commitOk type n).2 →
        a = b) := by
  refine ⟨fun h c t n => ?_, fun h m a k hmem => destroyMemory_free_addr h m a k hmem,
    fun h b c t n a k hb hmem => ?_⟩
  · refine ⟨?_, ?_, ?_⟩ <;> simp [createMemoryImpl, destroyMemory, numGuardPages]
  · simp only [createMemoryImpl] at hmem
    rw [if_neg hb] at hmem
    split at hmem
    · simp only [List.mem_cons, List.mem_append] at hmem
      rcases hmem with hmem | hmem | hmem
      · cases hmem
      · exact absurd hmem (growMemory_no_free _ _ _ _ _ _)
      · have := destroyMemory_free_addr _ _ _ _ hmem
        rw [growMemory_baseAddress] at this
        exact this
    · simp only [List.mem_cons] at hmem
      rcases hmem with hmem | hmem
      · cases hmem
      · exact absurd hmem (growMemory_no_free _ _ _ _ _ _)

/-- C10 amended witness: a free issued on a destruction path after a
successful reservation at base 77 carries that base. -/
theorem destruction_free_paths_witness : (77 : Nat) = 77 :=
  destruction_free_paths.2.2 12 77 false ⟨1, 10⟩ 1 77 2097153 (by decide) (by decide)

theorem createMemoryImpl_some (h rb : Nat) (c : Bool) (t : MemoryType) (n : Nat)
    (m : MemoryInstance) (hsome : (createMemoryImpl h rb c t n).1 = some m) :
    m = { type := t, baseAddress := rb, endOffset := 8589934592, numPages := n % 2 ^ 64 }
    ∧ (0 < n → n ≤ t.max) := by
  simp only [createMemoryImpl] at hsome
  split at hsome
  · cases hsome
  · split at hsome
    · cases hsome
    · rename_i hfail
      simp only [Option.some.injEq] at hsome
      subst hsome
      rcases Nat.eq_zero_or_pos n with hn0 | hn
      · subst hn0
        rw [growMemory_zero]
        exact ⟨rfl, fun h0 => absurd h0 (by omega)⟩
      · by_cases hchk : t.max < n ∨ t.max - n < (0 : Nat)
        · rw [growMemory_boundFail _ _ _ _ hn hchk] at hfail
          exact absurd rfl hfail
        · cases c
          · rw [growMemory_commitFail _ _ _ hn hchk] at hfail
            exact absurd rfl hfail
          · rw [growMemory_commitOk _ _ _ hn hchk]
            exact ⟨by dsimp only; rw [Nat.zero_add], fun _ => by omega⟩

/-- C4: a memory successfully created from a type with min_pages ≤ max_pages
satisfies min_pages ≤ num_pages ≤ max_pages (with num_pages = min_pages),
and the invariant is preserved by growMemory and shrinkMemory on success and
failure alike (for uintptr-representable maxima), while unmapMemoryPages
never changes the memory at all. -/
theorem memory_pageCount_invariant :
    (∀ hostPageSizeLog2 reserveResult commitOk idOk type m,
      type.min ≤ type.max →
      createMemory hostPageSizeLog2 reserveResult commitOk idOk type = some (some m) →
      memInv m ∧ m.numPages = type.min ∧ m.type = type)
    ∧ (∀ hostPageSizeLog2 commitOk m n, memInv m → m.type.max ≤ UINTPTR_MAX →
        memInv (growMemory hostPageSizeLog2 commitOk m n).2.1)
    ∧ (∀ hostPageSizeLog2 m n, memInv m →
        memInv (shrinkMemory hostPageSizeLog2 m n).2.1)
    ∧ (∀ hostPageSizeLog2 m p n m' tr,
        unmapMemoryPages hostPageSizeLog2 m p n = some (m', tr) → m' = m) := by
  refine ⟨fun h rb c i t m hminmax hcreate => ?_, fun h c m n hinv hmax => ?_,
    fun h m n hinv => ?_, fun h m p n m' tr hsome => ?_⟩
  · simp only [createMemory] at hcreate
    split at hcreate
    · rename_i hrep
      simp only [UINTPTR_MAX] at hrep
      simp only [Option.some.injEq] at hcreate
      split at hcreate
      · cases hcreate
      · rename_i mem hmem
        have himpl := createMemoryImpl_some h rb c t t.min mem hmem
        split at hcreate
        · simp only [Option.some.injEq] at hcreate
          subst hcreate
          have hmod : t.min % 2 ^ 64 = t.min := by
            have h64 : (2 : Nat) ^ 64 = 18446744073709551616 := by norm_num
            rw [h64]; omega
          rw [himpl.1, hmod]
          exact ⟨⟨le_refl _, hminmax⟩, rfl, rfl⟩
        · cases hcreate
    · cases hcreate
  · rcases Nat.eq_zero_or_pos n with hn0 | hn
    · subst hn0; rw [growMemory_zero]; exact hinv
    · by_cases hchk : m.type.max < n ∨ m.type.max - n < m.numPages
      · rw [growMemory_boundFail _ _ _ _ hn hchk]; exact hinv
      · cases c
        · rw [growMemory_commitFail _ _ _ hn hchk]; exact hinv
        · rw [growMemory_commitOk _ _ _ hn hchk]
          simp only [UINTPTR_MAX] at hmax
          have h64 : (2 : Nat) ^ 64 = 18446744073709551616 := by norm_num
          rcases hinv with ⟨hlo, hhi⟩
          constructor
          · dsimp only; rw [h64] at hmax ⊢; omega
          · dsimp only; rw [h64] at hmax ⊢; omega
  · rcases Nat.eq_zero_or_pos n with hn0 | hn
    · subst hn0; rw [shrinkMemory_zero]; exact hinv
    · by_cases hchk : m.numPages < n ∨ m.numPages - n < m.type.min
      · rw [shrinkMemory_boundFail _ _ _ hn hchk]; exact hinv
      · rw [shrinkMemory_ok _ _ _ hn hchk]
        rcases hinv with ⟨hlo, hhi⟩
        exact ⟨by dsimp only; omega, by dsimp only; omega⟩
  · simp only [unmapMemoryPages] at hsome
    split at hsome
    · simp only [Option.some.injEq, Prod.mk.injEq] at hsome
      exact hsome.1.symm
    · cases hsome

/-- C4 witness: the invariant holds after a concrete successful creation
from the type with min 1 and max 10. -/
theorem memory_pageCount_invariant_witness :
    memInv ⟨⟨1, 10⟩, 65536, 8589934592, 1⟩ ∧
    (⟨⟨1, 10⟩, 65536, 8589934592, 1⟩ : MemoryInstance).numPages = 1 ∧
    (⟨⟨1, 10⟩, 65536, 8589934592, 1⟩ : MemoryInstance).type = ⟨1, 10⟩ :=
  memory_pageCount_invariant.1 12 65536 true true ⟨1, 10⟩ _ (by decide) rfl

theorem gvmor_eval (m : MemoryInstance) (o n : Nat)
    (hfit : m.baseAddress + m.endOffset < 2 ^ 64) (hn : n < 2 ^ 64) :
    getValidatedMemoryOffsetRange (some m) o n =
      if m.baseAddress + saturateToBounds o m.endOffset + n ≤
          m.baseAddress + m.endOffset then
        AccessResult.ok (m.baseAddress + saturateToBounds o m.endOffset)
      else AccessResult.trap := by
  obtain ⟨t, b, e, p⟩ := m
  dsimp only at hfit ⊢
  have h64 : (2 : Nat) ^ 64 = 18446744073709551616 := by norm_num
  have hub : saturateToBounds o e ≤ e := min_le_right o e
  rw [h64] at hfit hn
  simp only [getValidatedMemoryOffsetRange, h64]
  rw [Nat.mod_eq_of_lt (by omega)]
  split_ifs with h1 h2 <;> first | rfl | (exfalso; omega)

/-- C2: for every non-null memory whose reservation fits the address space,
getValidatedMemoryOffsetRange returns the pointer
`base_address + saturate(offset, end_offset)` exactly when that start is at
least base_address, start + numBytes does not overflow, and
start + numBytes ≤ base_address + end_offset, and traps otherwise; validity
is judged against the reservation end_offset, so a range ending exactly at
base + end_offset succeeds while one crossing it traps. -/
theorem getValidatedMemoryOffsetRange_spec (m : MemoryInstance) (o n : Nat)
    (hfit : m.baseAddress + m.endOffset < 2 ^ 64) (hn : n < 2 ^ 64) :
    (getValidatedMemoryOffsetRange (some m) o n =
        AccessResult.ok (m.baseAddress + saturateToBounds o m.endOffset) ↔
      (m.baseAddress ≤ m.baseAddress + saturateToBounds o m.endOffset ∧
        m.baseAddress + saturateToBounds o m.endOffset + n < 2 ^ 64 ∧
        m.baseAddress + saturateToBounds o m.endOffset + n ≤
          m.baseAddress + m.endOffset))
    ∧ (getValidatedMemoryOffsetRange (some m) o n ≠
        AccessResult.ok (m.baseAddress + saturateToBounds o m.endOffset) →
      getValidatedMemoryOffsetRange (some m) o n = AccessResult.trap)
    ∧ (4 ≤ m.endOffset →
        getValidatedMemoryOffsetRange (some m) (m.endOffset - 4) 4 =
          AccessResult.ok (m.baseAddress + (m.endOffset - 4)) ∧
        getValidatedMemoryOffsetRange (some m) (m.endOffset - 4) 8 = AccessResult.trap) := by
  have hev := gvmor_eval m o n hfit hn
  obtain ⟨t, b, e, p⟩ := m
  dsimp only at hfit hev ⊢
  have hub : saturateToBounds o e ≤ e := min_le_right o e
  refine ⟨?_, ?_, ?_⟩
  · rw [hev]
    split_ifs with hle
    · exact ⟨fun _ => ⟨by omega, by omega, hle⟩, fun _ => rfl⟩
    · constructor
      · intro habs; cases habs
      · intro hc; exact absurd hc.2.2 hle
  · rw [hev]
    split_ifs with hle
    · intro hne; exact absurd rfl hne
    · intro _; rfl
  · intro h4
    have hub4 : saturateToBounds (e - 4) e = e - 4 := min_eq_left (by omega)
    constructor
    · rw [gvmor_eval ⟨t, b, e, p⟩ (e - 4) 4 hfit (by norm_num)]
      dsimp only
      rw [hub4, if_pos (by omega)]
    · rw [gvmor_eval ⟨t, b, e, p⟩ (e - 4) 8 hfit (by norm_num)]
      dsimp only
      rw [hub4, if_neg (by omega)]

/-- C2 witness: on a concrete memory, a range ending exactly at the
reservation end succeeds and one crossing it traps. -/
theorem getValidatedMemoryOffsetRange_spec_witness :
    getValidatedMemoryOffsetRange (some ⟨⟨1, 10⟩, 65536, 8589934592, 1⟩)
      (8589934592 - 4) 4 = AccessResult.ok (65536 + (8589934592 - 4)) ∧
    getValidatedMemoryOffsetRange (some ⟨⟨1, 10⟩, 65536, 8589934592, 1⟩)
      (8589934592 - 4) 8 = AccessResult.trap :=
  (getValidatedMemoryOffsetRange_spec ⟨⟨1, 10⟩, 65536, 8589934592, 1⟩ 0 0
    (by norm_num) (by norm_num)).2.2 (by decide)

theorem isAddressOwnedByMemory_iff (ms : List MemoryInstance) (p : Nat) :
    isAddressOwnedByMemory ms p = true ↔
      ∃ m, m ∈ ms ∧ m.baseAddress ≤ p ∧ p < m.baseAddress + m.endOffset := by
  simp [isAddressOwnedByMemory, List.any_eq_true]

theorem owned_erase_false (ms : List MemoryInstance) (m : MemoryInstance) (p : Nat)
    (hdisj : List.Pairwise disjointReservations ms) (hm : m ∈ ms)
    (hlo : m.baseAddress ≤ p) (hhi : p < m.baseAddress + m.endOffset) :
    isAddressOwnedByMemory (ms.erase m) p = false := by
  induction ms with
  | nil => cases hm
  | cons a l ih =>
    rcases List.pairwise_cons.mp hdisj with ⟨hhead, htail⟩
    rw [List.erase_cons]
    by_cases hae : a = m
    · rw [if_pos (by simp [hae])]
      subst hae
      rw [← Bool.not_eq_true, isAddressOwnedByMemory_iff]
      rintro ⟨x, hx, hxlo, hxhi⟩
      have hd := hhead x hx
      simp only [disjointReservations] at hd
      rcases hd with hd | hd <;> omega
    · rw [if_neg (by simp [hae])]
      have hm' : m ∈ l := by
        rcases List.mem_cons.mp hm with h | h
        · exact absurd h.symm hae
        · exact h
      rw [← Bool.not_eq_true, isAddressOwnedByMemory_iff]
      rintro ⟨x, hx, hxlo, hxhi⟩
      rcases List.mem_cons.mp hx with hxa | hxl
      · subst hxa
        have hd := hhead m hm'
        simp only [disjointReservations] at hd
        rcases hd with hd | hd <;> omega
      · have hfalse := ih htail hm'
        rw [← Bool.not_eq_true, isAddressOwnedByMemory_iff] at hfalse
        exact hfalse ⟨x, hxl, hxlo, hxhi⟩

/-- C5: isAddressOwnedByMemory returns true exactly when some registered
memory's range [base_address, base_address + end_offset) contains the
address; an address outside every registered memory's range (in particular
at or past base + end_offset of each) yields false; and after erasing a
memory from the registry, every address of its former reservation yields
false (the registered reservations being pairwise disjoint). -/
theorem isAddressOwnedByMemory_spec :
    (∀ (ms : List MemoryInstance) (p : Nat), isAddressOwnedByMemory ms p = true ↔
      ∃ m, m ∈ ms ∧ m.baseAddress ≤ p ∧ p < m.baseAddress + m.endOffset)
    ∧ (∀ (ms : List MemoryInstance) (p : Nat),
        (∀ m, m ∈ ms → p < m.baseAddress ∨ m.baseAddress + m.endOffset ≤ p) →
        isAddressOwnedByMemory ms p = false)
    ∧ (∀ (ms : List MemoryInstance) (m : MemoryInstance) (p : Nat),
        List.Pairwise disjointReservations ms → m ∈ ms →
        m.baseAddress ≤ p → p < m.baseAddress + m.endOffset →
        isAddressOwnedByMemory (ms.erase m) p = false) := by
  refine ⟨isAddressOwnedByMemory_iff, fun ms p hout => ?_, owned_erase_false⟩
  rw [← Bool.not_eq_true, isAddressOwnedByMemory_iff]
  rintro ⟨x, hx, h1, h2⟩
  rcases hout x hx with h | h <;> omega

/-- C5 witness: after erasing a concrete memory from a two-memory registry
with disjoint reservations, an address inside its former reservation is no
longer owned. -/
theorem isAddressOwnedByMemory_spec_witness :
    isAddressOwnedByMemory
      (([⟨⟨1, 10⟩, 1000, 100, 1⟩, ⟨⟨1, 10⟩, 2000, 100, 1⟩] :
        List MemoryInstance).erase ⟨⟨1, 10⟩, 1000, 100, 1⟩) 1050 = false :=
  isAddressOwnedByMemory_spec.2.2 [⟨⟨1, 10⟩, 1000, 100, 1⟩, ⟨⟨1, 10⟩, 2000, 100, 1⟩]
    ⟨⟨1, 10⟩, 1000, 100, 1⟩ 1050
    (by norm_num [List.pairwise_cons, disjointReservations]) (by decide)
    (by decide) (by decide)
